import Mathlib

/-!
Verification of the rowrm single-table ORM (`src/index.ts`).

The embedding is shallow:

* A SQL fragment (the `Sql` template type of `@databases/sql`) is a list of
  tokens: raw literal text, a quoted identifier, or a parameterized value.
  `sql.join` is `List.intercalate`.
* A JS scalar is `JsVal` (number, string, or null); a row object is an
  association list from column name to scalar, in JS key-insertion order
  (the order `Object.entries` yields).
* The connection (`Queryable`) is a function from a fragment to either rows
  or a connection error.  Every `Db` method is translated to a function
  returning the pair of its outcome (`Except DbErr α`) and the list of
  queries it issued to the connection, in order — the trace makes round-trip
  counting and "raised before any statement was issued" provable.
* `tiny-invariant` failures are split by call site into the spec's
  `InvalidArgument` (precondition checks) and `InvariantViolation`
  (cardinality checks); a connection error is wrapped as `DataAccessError`
  (`new DbError(e)` in the source).
* JS string methods used by `codegenTypes` and `runScript`
  (`toLowerCase`, `includes`, `split`, `trim`) are modelled structurally
  over `List Char` so that they evaluate inside the kernel.
-/

namespace Rowrm

/-- A JS scalar value as stored in / matched against a row: number, string or
null.  (Numbers are modelled as integers; nothing in the claims depends on
non-integer numerics.) -/
inductive JsVal
  | num : Int → JsVal
  | str : String → JsVal
  | null : JsVal
deriving DecidableEq

/-- A row object: association list from column name to scalar, in the key
order `Object.entries` yields. -/
abbrev Row := List (String × JsVal)

/-- One token of a SQL template fragment (`@databases/sql`): raw text,
`sql.ident` (a safely-quoted identifier) or `sql.value` (a parameterized
value). -/
inductive SqlTok
  | lit : String → SqlTok
  | ident : String → SqlTok
  | value : JsVal → SqlTok
deriving DecidableEq

/-- A SQL fragment is a token list; template interpolation is concatenation. -/
abbrev Sql := List SqlTok

/-- An error raised by the underlying connection. -/
structure ConnError where
  message : String
deriving DecidableEq

/-- The `Queryable` interface (`index.ts:14-16`): one capability, issue a
query and get back rows or an error. -/
abbrev Conn := Sql → Except ConnError (List Row)

/-- The error taxonomy of the spec: precondition `invariant` calls raise
`InvalidArgument`, cardinality `invariant` calls raise `InvariantViolation`,
and a connection failure is wrapped as `DataAccessError` (class `DbError`,
`index.ts:18`). -/
inductive DbErr
  | invalidArgument : String → DbErr
  | invariantViolation : String → DbErr
  | dataAccessError : String → DbErr
deriving DecidableEq

/-- Outcome of a `Db` method together with the trace of queries it issued to
the connection, in order. -/
abbrev DbResult (α : Type) := Except DbErr α × List Sql

/-- `true` exactly when the outcome is an `InvalidArgument` failure. -/
def isInvalidArg {α : Type} : Except DbErr α → Bool
  | .error (.invalidArgument _) => true
  | _ => false

/-- A connection that answers every query with an empty row set. -/
def connOkEmpty : Conn := fun _ => .ok []

namespace Db

/-- `Db.query` (`index.ts:26-34`): forwards to the connection and wraps any
connection error in `DbError`, preserving the message. -/
def query (conn : Conn) (q : Sql) : DbResult (List Row) :=
  match conn q with
  | .ok rows => (.ok rows, [q])
  | .error e => (.error (.dataAccessError e.message), [q])

/-- The statement built for one row by `Db.insert` (`index.ts:42-56`):
`<command> <table> (<col, ...>) values (<val, ...>)`. -/
def insertRowSql (command : Sql) (tableName : String) (row : Row) : Sql :=
  command ++ [SqlTok.lit " ", SqlTok.ident tableName, SqlTok.lit " ("]
    ++ List.intercalate [SqlTok.lit ", "] (row.map fun e => [SqlTok.ident e.1])
    ++ [SqlTok.lit ") values ("]
    ++ List.intercalate [SqlTok.lit ", "] (row.map fun e => [SqlTok.value e.2])
    ++ [SqlTok.lit ")"]

/-- `Promise.all` over the per-row insert results: the first failure in list
order wins, otherwise unit (`index.ts:41`). -/
def firstInsertErr : List (Except DbErr (List Row)) → Except DbErr Unit
  | [] => .ok ()
  | .ok _ :: rest => firstInsertErr rest
  | .error e :: _ => .error e

/-- `Db.insert` (`index.ts:36-59`): dispatches one INSERT statement per row
(all dispatched, `Promise.all`), so the trace is the concatenation of the
per-row query traces. -/
def insert (conn : Conn) (command : Sql) (tableName : String) (rows : List Row) :
    DbResult Unit :=
  let results := rows.map fun row => query conn (insertRowSql command tableName row)
  (firstInsertErr (results.map Prod.fst), (results.map Prod.snd).flatten)

/-- `Db.insertOrReplace` (`index.ts:64-69`). -/
def insertOrReplace (conn : Conn) (tableName : String) (rows : List Row) : DbResult Unit :=
  insert conn [SqlTok.lit "replace into"] tableName rows

/-- `Db.insertOrIgnore` (`index.ts:74-79`). -/
def insertOrIgnore (conn : Conn) (tableName : String) (rows : List Row) : DbResult Unit :=
  insert conn [SqlTok.lit "insert or ignore into"] tableName rows

/-- `Db.insertOrThrow` (`index.ts:84-89`). -/
def insertOrThrow (conn : Conn) (tableName : String) (rows : List Row) : DbResult Unit :=
  insert conn [SqlTok.lit "insert into"] tableName rows

/-- The `col = val` clause used by both the SET clause and `rowToWhere`
(`index.ts:101` and `index.ts:189`). -/
def eqClause (e : String × JsVal) : Sql :=
  [SqlTok.ident e.1, SqlTok.lit " = ", SqlTok.value e.2]

/-- The SET clause of `Db.setBySql` (`index.ts:99-104`): `col = val` pairs
joined by `, `.  For an empty mapping this is the empty fragment — the source
performs no emptiness check. -/
def setClauseSql (row : Row) : Sql :=
  List.intercalate [SqlTok.lit ", "] (row.map eqClause)

/-- `Db.setBySql` (`index.ts:94-109`): issues
`update <table> set <clauses> where <predicate>` and passes the engine's
result through. -/
def setBySql (conn : Conn) (tableName : String) (wh : Sql) (row : Row) :
    DbResult (List Row) :=
  query conn ([SqlTok.lit "update ", SqlTok.ident tableName, SqlTok.lit " set "]
    ++ setClauseSql row ++ [SqlTok.lit " where "] ++ wh)

/-- `Db.rowToWhere` (`index.ts:182-193`): the predicate compiler.  An empty
mapping compiles to the literal fragment `1`; otherwise the `col = val`
clauses are joined by ` and `. -/
def rowToWhere (row : Row) : Sql :=
  if row.length = 0 then [SqlTok.lit "1"]
  else List.intercalate [SqlTok.lit " and "] (row.map eqClause)

/-- `Db.set` (`index.ts:114-120`). -/
def set (conn : Conn) (tableName : String) (whereValues updateValues : Row) :
    DbResult (List Row) :=
  setBySql conn tableName (rowToWhere whereValues) updateValues

/-- `Db.delBySql` (`index.ts:125-130`). -/
def delBySql (conn : Conn) (tableName : String) (wh : Sql) : DbResult Unit :=
  let r := query conn ([SqlTok.lit "delete from ", SqlTok.ident tableName,
    SqlTok.lit " where "] ++ wh)
  (r.1.map fun _ => (), r.2)

/-- `Db.del` (`index.ts:135-140`). -/
def del (conn : Conn) (tableName : String) (values : Row) : DbResult Unit :=
  delBySql conn tableName (rowToWhere values)

/-- The statement built by `Db.getAllBySql` (`index.ts:150`). -/
def selectSql (tableName : String) (wh : Sql) : Sql :=
  [SqlTok.lit "select * from ", SqlTok.ident tableName, SqlTok.lit " where "] ++ wh

/-- `Db.getAllBySql` (`index.ts:145-153`): `select * from <table> where <pred>`. -/
def getAllBySql (conn : Conn) (tableName : String) (wh : Sql) : DbResult (List Row) :=
  query conn (selectSql tableName wh)

/-- `Db.getOneBySql` (`index.ts:158-168`): appends ` limit 2` to the
predicate, then applies the cardinality check `rows.length < 2`; zero rows
yield `none`, one row yields it. -/
def getOneBySql (conn : Conn) (tableName : String) (wh : Sql) : DbResult (Option Row) :=
  match getAllBySql conn tableName (wh ++ [SqlTok.lit " limit 2"]) with
  | (.error e, tr) => (.error e, tr)
  | (.ok rows, tr) =>
    if rows.length < 2 then
      if rows.length ≠ 1 then (.ok none, tr) else (.ok rows.head?, tr)
    else (.error (.invariantViolation "more than one row matched this query"), tr)

/-- `Db.getOneBySqlOrThrow` (`index.ts:173-180`): like `getOneBySql` but zero
rows are a cardinality failure. -/
def getOneBySqlOrThrow (conn : Conn) (tableName : String) (wh : Sql) : DbResult Row :=
  match getOneBySql conn tableName wh with
  | (.ok (some r), tr) => (.ok r, tr)
  | (.ok none, tr) =>
    (.error (.invariantViolation "less than one row matched this query"), tr)
  | (.error e, tr) => (.error e, tr)

end Db

/-- The options object of `Db.getAll` (`index.ts:201-205`): `orderBy` is a
single column or an array of columns, `direction` is an optional string
(checked at runtime), `limit` is an optional JS value (only its runtime type
is checked, via `typeof`). -/
structure GetAllOptions where
  orderBy : Sum String (List String)
  direction : Option String
  limit : Option JsVal

/-- `typeof x === "number"`. -/
def isJsNumber : JsVal → Bool
  | .num _ => true
  | _ => false

namespace Db

/-- `Db.getAll` (`index.ts:198-245`): compiles the partial-row predicate,
validates the options (empty `orderBy` array; `direction` truthy yet neither
`asc` nor `desc`; `limit` defined but not a number — each check mirrors the
source `invariant` call and fires before the query is issued), appends
ORDER BY / LIMIT, and delegates to `getAllBySql`. -/
def getAll (conn : Conn) (tableName : String) (values : Row)
    (options : Option GetAllOptions) : DbResult (List Row) :=
  let wh := rowToWhere values
  match options with
  | none => getAllBySql conn tableName wh
  | some o =>
    if (match o.orderBy with
        | .inl _ => true
        | .inr l => decide (l.length > 0)) = false then
      (.error (.invalidArgument "must have at least 1 element in orderBy array"), [])
    else
      let orderByColumns : Sql :=
        match o.orderBy with
        | .inl c => [SqlTok.ident c]
        | .inr l => List.intercalate [SqlTok.lit ","] (l.map fun c => [SqlTok.ident c])
      if (match o.direction with
          | none => true
          | some d => d == "" || d == "asc" || d == "desc") = false then
        (.error (.invalidArgument "direction must be 'asc' or 'desc'"), [])
      else
        let direction : Sql :=
          if o.direction = some "asc" then [SqlTok.lit "asc"]
          else if o.direction = some "desc" then [SqlTok.lit "desc"]
          else [SqlTok.lit "asc"]
        let q1 := wh ++ [SqlTok.lit " order by "] ++ orderByColumns
          ++ [SqlTok.lit " "] ++ direction
        match o.limit with
        | none => getAllBySql conn tableName q1
        | some lv =>
          if isJsNumber lv then
            getAllBySql conn tableName (q1 ++ [SqlTok.lit " limit ", SqlTok.value lv])
          else (.error (.invalidArgument "limit must be a number"), [])

/-- `Db.getOne` (`index.ts:250-260`): delegates to `getAll` with no options,
then applies the cardinality check. -/
def getOne (conn : Conn) (tableName : String) (values : Row) : DbResult (Option Row) :=
  match getAll conn tableName values none with
  | (.error e, tr) => (.error e, tr)
  | (.ok rows, tr) =>
    if rows.length < 2 then
      if rows.length ≠ 1 then (.ok none, tr) else (.ok rows.head?, tr)
    else (.error (.invariantViolation "more than one row matched this query"), tr)

/-- `Db.getOneOrThrow` (`index.ts:265-272`). -/
def getOneOrThrow (conn : Conn) (tableName : String) (values : Row) : DbResult Row :=
  match getOne conn tableName values with
  | (.ok (some r), tr) => (.ok r, tr)
  | (.ok none, tr) =>
    (.error (.invariantViolation "less than one row matched this query"), tr)
  | (.error e, tr) => (.error e, tr)

end Db

/-- A bound single-table accessor (`class Table`, `part_001:20-24`): the
connection handle and the table name captured at construction. -/
structure Table where
  underlyingDb : Conn
  tableName : String

/-- The `tables(connection)` proxy (`part_001:241-257`): property access on
the returned object; the property `"then"` yields `undefined` (modelled as
`none`), every other property yields a fresh `Table` bound to that name and
the given connection. -/
def tables (connectionOrTransaction : Conn) (prop : String) : Option Table :=
  if prop = "then" then none
  else some ⟨connectionOrTransaction, prop⟩

/-! ## JS string primitives, modelled structurally over `List Char` -/

/-- JS `String.prototype.toLowerCase` (ASCII fragment), as used at
`index.ts:319`. -/
def jsToLowerCase (s : List Char) : List Char :=
  s.map Char.toLower

/-- `pat` occurs at the head of `s`. -/
def charsStartWith : List Char → List Char → Bool
  | _, [] => true
  | [], _ :: _ => false
  | a :: as, b :: bs => a == b && charsStartWith as bs

/-- JS `String.prototype.includes` (substring occurrence), as used at
`index.ts:322-328`. -/
def jsIncludes : List Char → List Char → Bool
  | s, pat =>
    charsStartWith s pat ||
      match s with
      | [] => false
      | _ :: rest => jsIncludes rest pat

/-- JS `String.prototype.split` on a single separator character, as used at
`index.ts:349`. -/
def jsSplit (sep : Char) (s : List Char) : List (List Char) :=
  s.splitOn sep

/-- JS `String.prototype.trim`, as used at `index.ts:350`. -/
def jsTrim (s : List Char) : List Char :=
  ((s.dropWhile Char.isWhitespace).reverse.dropWhile Char.isWhitespace).reverse

/-! ## Schema codegen (`codegenTypes`, `index.ts:292-340`) -/

/-- One row of `pragma table_info` (`index.ts:275-282`): `notnull` and `pk`
are the integer flags SQLite reports. -/
structure Column where
  cid : Int
  name : String
  type : String
  notnull : Int
  pk : Int

/-- JS truthiness of an integer flag. -/
def jsTruthy (n : Int) : Bool :=
  !(n == 0)

/-- The base-type heuristic of `codegenTypes` (`index.ts:319-330`): lowercase
the declared type, emit `number` when it mentions int/real/double/float or
bool/bit, else `string`. -/
def columnBaseType (column : Column) : String :=
  let columnType := jsToLowerCase column.type.data
  if jsIncludes columnType "int".data || jsIncludes columnType "real".data
      || jsIncludes columnType "double".data || jsIncludes columnType "float".data then
    "number"
  else if jsIncludes columnType "bool".data || jsIncludes columnType "bit".data then
    "number"
  else "string"

/-- The nullability marker of `codegenTypes` (`index.ts:333`):
`column.notnull || column.pk ? "" : " | null"`. -/
def columnNullableSuffix (column : Column) : String :=
  if jsTruthy column.notnull || jsTruthy column.pk then "" else " | null"

/-- The per-column line emitted by `codegenTypes` (`index.ts:334`). -/
def codegenColumnLine (column : Column) : String :=
  "    " ++ column.name ++ ": " ++ columnBaseType column
    ++ columnNullableSuffix column ++ ";"

/-! ## runScript (`index.ts:346-355`) -/

/-- The statement loop of `runScript`: segments whose trim is empty are
skipped (`continue`), the rest are executed in order via `db.query` on a raw
fragment (`sql.__dangerous__rawValue`); the loop aborts at the first
failure. -/
def runScriptGo (conn : Conn) : List (List Char) → DbResult Unit
  | [] => (.ok (), [])
  | stmt :: rest =>
    if (jsTrim stmt).length = 0 then runScriptGo conn rest
    else
      match Db.query conn [SqlTok.lit (String.mk stmt)] with
      | (.ok _, tr) =>
        let r2 := runScriptGo conn rest
        (r2.1, tr ++ r2.2)
      | (.error e, tr) => (.error e, tr)

/-- `runScript` (`index.ts:346-355`): naively splits the script on `;` and
runs the non-blank segments one at a time. -/
def runScript (conn : Conn) (script : List Char) : DbResult Unit :=
  runScriptGo conn (jsSplit ';' script)

/-! ## Semantic layer: the external engine, modelled from the spec

The database engine behind the connection is an external collaborator
("Excluded: … the underlying database connection"), so the claims about what
a query *matches* are settled against an engine modelled from the spec: a
table is a list of stored rows, SELECT returns the rows matching the
predicate capped by the LIMIT, and INSERT appends the row with omitted
columns materialized as null. -/

/-- The semantics the engine gives the fragment `rowToWhere values`: a stored
row matches iff it agrees with every `(column, value)` pair of the partial
row (`rowToWhere values` is the conjunction of those equalities; the empty
mapping compiles to the always-true literal `1`). -/
def rowMatches (values : Row) (r : Row) : Bool :=
  values.all fun e => r.lookup e.1 == some e.2

/-- Modelled from the spec: the external engine's SELECT.  It returns the
stored rows matching the predicate, in table order, capped by the LIMIT
clause when one is present. -/
def selectWhere (table : List Row) (pred : Row → Bool) (lim : Option Nat) : List Row :=
  match lim with
  | none => table.filter pred
  | some n => (table.filter pred).take n

/-- Modelled from the spec: a row as materialized by the engine on INSERT —
every schema column, with omitted columns stored as null ("any omitted
nullable columns materialized as null"). -/
def materialize (schema : List String) (row : Row) : Row :=
  schema.map fun c => (c, (row.lookup c).getD JsVal.null)

/-- `Db.insertOrThrow` of a single fresh row (`index.ts:84-89`) against the
engine modelled from the spec: a successful INSERT appends the materialized
row to the table. -/
def insertOrThrowSem (table : List Row) (schema : List String) (row : Row) :
    List Row :=
  table ++ [materialize schema row]

/-- `Db.getOneBySql` (`index.ts:158-168`) against the engine modelled from
the spec: the underlying SELECT carries the appended ` limit 2`, then the
source's cardinality check runs on the result. -/
def getOneBySqlSem (table : List Row) (pred : Row → Bool) : Except DbErr (Option Row) :=
  let rows := selectWhere table pred (some 2)
  if rows.length < 2 then
    if rows.length ≠ 1 then .ok none else .ok rows.head?
  else .error (.invariantViolation "more than one row matched this query")

/-- `Db.getOneBySqlOrThrow` (`index.ts:173-180`) against the modelled
engine. -/
def getOneBySqlOrThrowSem (table : List Row) (pred : Row → Bool) : Except DbErr Row :=
  match getOneBySqlSem table pred with
  | .ok (some r) => .ok r
  | .ok none => .error (.invariantViolation "less than one row matched this query")
  | .error e => .error e

/-- `Db.getOne` (`index.ts:250-260`) against the modelled engine: it
delegates to `getAll` with no options, so the SELECT carries no LIMIT; the
predicate is the compiled partial-row equality conjunction. -/
def getOneSem (table : List Row) (values : Row) : Except DbErr (Option Row) :=
  let rows := selectWhere table (rowMatches values) none
  if rows.length < 2 then
    if rows.length ≠ 1 then .ok none else .ok rows.head?
  else .error (.invariantViolation "more than one row matched this query")

/-- `Db.getOneOrThrow` (`index.ts:265-272`) against the modelled engine. -/
def getOneOrThrowSem (table : List Row) (values : Row) : Except DbErr Row :=
  match getOneSem table values with
  | .ok (some r) => .ok r
  | .ok none => .error (.invariantViolation "less than one row matched this query")
  | .error e => .error e

/-- The AND-conjuncts of a compiled predicate fragment: the fragment split on
the ` and ` separator token. -/
def conjuncts (w : Sql) : List Sql :=
  w.splitOn (SqlTok.lit " and ")

/-! ## Helper lemmas -/

/-- Every call to `Db.query` issues exactly the one query it was given,
whatever the connection answers. -/
theorem query_trace (conn : Conn) (q : Sql) : (Db.query conn q).2 = [q] := by
  unfold Db.query
  cases conn q <;> rfl

/-- `Db.query` never produces an `InvalidArgument` failure. -/
theorem query_not_invalidArg (conn : Conn) (q : Sql) :
    isInvalidArg (Db.query conn q).1 = false := by
  unfold Db.query
  cases h : conn q <;> rfl

/-- Flattening a list of singleton lists is the underlying map. -/
theorem flatten_map_singleton {α β : Type} (f : α → List β) (l : List α) :
    (l.map fun a => [f a]).flatten = l.map f := by
  induction l with
  | nil => rfl
  | cons a t ih => simp [ih]

/-- The trace of `Db.insert` is one INSERT statement per row, in order. -/
theorem insert_trace (conn : Conn) (command : Sql) (tableName : String)
    (rows : List Row) :
    (Db.insert conn command tableName rows).2
      = rows.map (Db.insertRowSql command tableName) := by
  unfold Db.insert
  simp only [List.map_map]
  have h : ((fun row => (Db.query conn (Db.insertRowSql command tableName row)).2)
      : Row → List Sql) = fun row => [Db.insertRowSql command tableName row] := by
    funext row
    exact query_trace conn _
  rw [show (Prod.snd ∘ fun row => Db.query conn (Db.insertRowSql command tableName row))
      = fun row => (Db.query conn (Db.insertRowSql command tableName row)).2 from rfl, h]
  exact flatten_map_singleton _ rows

/-! ## Claims -/

/-- Claim C10: property access on the object returned by `tables(connection)`
yields `undefined` for the property `"then"` (so the proxy is not mistaken
for a thenable when awaited), and for every other property a fresh `Table`
accessor bound to that property as table name and to the given connection. -/
theorem tables_proxy_dispatch (conn : Conn) :
    tables conn "then" = none
    ∧ ∀ p : String, p ≠ "then" → tables conn p = some ⟨conn, p⟩ := by
  refine ⟨rfl, fun p hp => ?_⟩
  simp [tables, hp]

/-- Witness for C10 at the concrete property `"users"`. -/
theorem tables_proxy_dispatch_witness :
    tables connOkEmpty "then" = none
    ∧ tables connOkEmpty "users" = some ⟨connOkEmpty, "users"⟩ :=
  ⟨(tables_proxy_dispatch connOkEmpty).1,
    (tables_proxy_dispatch connOkEmpty).2 "users" (by decide)⟩

/-- Counterexample to claim C3: calling `set` with an empty update-values
mapping does not fail with `InvalidArgument`; a (malformed) UPDATE statement
is issued to the connection. -/
theorem set_empty_update_counterexample :
    isInvalidArg (Db.set connOkEmpty "users" [("user_id", JsVal.num 1)] []).1 = false
    ∧ (Db.set connOkEmpty "users" [("user_id", JsVal.num 1)] []).2.length = 1 := by
  constructor <;> rfl

/-- Claim C3 as amended: `set` and `setBySql` perform no emptiness check on
the update-values mapping.  With an empty mapping, no `InvalidArgument` is
raised; instead exactly one UPDATE statement whose SET clause is empty is
issued to the connection. -/
theorem set_empty_update_amended (conn : Conn) (tableName : String) (wh : Sql)
    (whereValues : Row) :
    (Db.setBySql conn tableName wh []).2
      = [[SqlTok.lit "update ", SqlTok.ident tableName, SqlTok.lit " set ",
          SqlTok.lit " where "] ++ wh]
    ∧ isInvalidArg (Db.setBySql conn tableName wh []).1 = false
    ∧ (Db.set conn tableName whereValues []).2
      = [[SqlTok.lit "update ", SqlTok.ident tableName, SqlTok.lit " set ",
          SqlTok.lit " where "] ++ Db.rowToWhere whereValues]
    ∧ isInvalidArg (Db.set conn tableName whereValues []).1 = false := by
  unfold Db.set Db.setBySql Db.setClauseSql
  refine ⟨?_, ?_, ?_, ?_⟩ <;>
    first
      | exact query_trace conn _
      | exact query_not_invalidArg conn _

/-- Claim C5: the schema codegen emits base type `number` exactly when the
column's declared type contains (after lowercasing, i.e. case-insensitively)
one of the substrings int, real, double, float, bool, bit, and `string`
otherwise; and it appends the ` | null` marker exactly when the column is
neither marked NOT NULL nor part of the primary key. -/
theorem codegen_column_rule (column : Column) :
    (columnBaseType column = "number" ↔
      (["int", "real", "double", "float", "bool", "bit"].any fun pat =>
        jsIncludes (jsToLowerCase column.type.data) pat.data) = true)
    ∧ (columnBaseType column = "number" ∨ columnBaseType column = "string")
    ∧ (columnNullableSuffix column = " | null" ↔ column.notnull = 0 ∧ column.pk = 0)
    ∧ (columnNullableSuffix column = " | null" ∨ columnNullableSuffix column = "")
    ∧ codegenColumnLine column
      = "    " ++ column.name ++ ": " ++ columnBaseType column
        ++ columnNullableSuffix column ++ ";" := by
  refine ⟨?_, ?_, ?_, ?_, rfl⟩
  · unfold columnBaseType
    simp only [List.any_cons, List.any_nil, Bool.or_false]
    cases h1 : jsIncludes (jsToLowerCase column.type.data) "int".data <;>
      cases h2 : jsIncludes (jsToLowerCase column.type.data) "real".data <;>
      cases h3 : jsIncludes (jsToLowerCase column.type.data) "double".data <;>
      cases h4 : jsIncludes (jsToLowerCase column.type.data) "float".data <;>
      cases h5 : jsIncludes (jsToLowerCase column.type.data) "bool".data <;>
      cases h6 : jsIncludes (jsToLowerCase column.type.data) "bit".data <;>
      simp
  · unfold columnBaseType
    dsimp only
    split_ifs <;> simp
  · unfold columnNullableSuffix jsTruthy
    split_ifs with h
    · constructor
      · intro hcon
        exact absurd hcon (by decide)
      · intro ⟨hn, hp⟩
        rw [hn, hp] at h
        exact absurd h (by decide)
    · simp only [true_iff]
      rcases Bool.or_eq_false_iff.mp (Bool.eq_false_iff.mpr h) with ⟨hn, hp⟩
      refine ⟨?_, ?_⟩
      · simpa using hn
      · simpa using hp
  · unfold columnNullableSuffix
    split_ifs <;> simp

/-- The ` and ` separator token never occurs inside an equality clause. -/
theorem and_sep_not_mem_eqClause (e : String × JsVal) :
    SqlTok.lit " and " ∉ Db.eqClause e := by
  simp [Db.eqClause]

/-- Claim C2: `rowToWhere` on an empty mapping returns the literal-true
fragment `1` (so a select with the empty predicate keeps every row of the
table); on a non-empty mapping it returns the equality clauses of the
mapping's entries joined by ` and `: splitting the fragment back on the
separator yields exactly one `identifier = value` clause per key, in order,
with the column as a quoted identifier and the value parameterized. -/
theorem rowToWhere_spec (values : Row) :
    (values = [] →
      Db.rowToWhere values = [SqlTok.lit "1"]
      ∧ ∀ table : List Row, table.filter (rowMatches values) = table)
    ∧ (values ≠ [] →
      conjuncts (Db.rowToWhere values)
        = values.map (fun e => [SqlTok.ident e.1, SqlTok.lit " = ", SqlTok.value e.2])
      ∧ (conjuncts (Db.rowToWhere values)).length = values.length) := by
  constructor
  · rintro rfl
    refine ⟨rfl, fun table => ?_⟩
    simp [rowMatches]
  · intro hne
    have hlen : ¬ values.length = 0 := by
      simpa using hne
    have hform : Db.rowToWhere values
        = List.intercalate [SqlTok.lit " and "] (values.map Db.eqClause) := by
      unfold Db.rowToWhere
      simp [hlen]
    have hsplit : conjuncts (Db.rowToWhere values) = values.map Db.eqClause := by
      rw [hform]
      unfold conjuncts
      refine List.splitOn_intercalate (values.map Db.eqClause) (SqlTok.lit " and ") ?_ ?_
      · intro l hl
        rcases List.mem_map.mp hl with ⟨e, _, rfl⟩
        exact and_sep_not_mem_eqClause e
      · simpa using hne
    refine ⟨?_, ?_⟩
    · rw [hsplit]
      rfl
    · rw [hsplit, List.length_map]

/-- Witness for C2 at a concrete two-key mapping and at the empty mapping. -/
theorem rowToWhere_spec_witness :
    conjuncts (Db.rowToWhere [("user_id", JsVal.num 1), ("bio", JsVal.str "x")])
      = [[SqlTok.ident "user_id", SqlTok.lit " = ", SqlTok.value (JsVal.num 1)],
         [SqlTok.ident "bio", SqlTok.lit " = ", SqlTok.value (JsVal.str "x")]]
    ∧ Db.rowToWhere ([] : Row) = [SqlTok.lit "1"] := by
  constructor
  · have h :=
      ((rowToWhere_spec [("user_id", JsVal.num 1), ("bio", JsVal.str "x")]).2
        (by decide)).1
    rw [h]
    rfl
  · exact ((rowToWhere_spec []).1 rfl).1

/-- No element of a segment produced by `splitOnP` satisfies the splitting
predicate. -/
theorem splitOnP_segments {α : Type} (p : α → Bool) (xs : List α) :
    ∀ seg ∈ xs.splitOnP p, ∀ a ∈ seg, p a = false := by
  induction xs with
  | nil =>
    intro seg hseg a ha
    rw [List.splitOnP_nil] at hseg
    simp only [List.mem_singleton] at hseg
    subst hseg
    simp at ha
  | cons x t ih =>
    intro seg hseg a ha
    rw [List.splitOnP_cons] at hseg
    by_cases hx : p x = true
    · rw [if_pos hx] at hseg
      rcases List.mem_cons.mp hseg with rfl | h
      · simp at ha
      · exact ih seg h a ha
    · rw [if_neg hx] at hseg
      rcases hsplit : t.splitOnP p with _ | ⟨h0, t0⟩
      · exact absurd hsplit (List.splitOnP_ne_nil p t)
      · rw [hsplit] at hseg
        simp only [List.modifyHead] at hseg
        rcases List.mem_cons.mp hseg with rfl | h
        · rcases List.mem_cons.mp ha with rfl | ha0
          · exact Bool.eq_false_iff.mpr hx
          · exact ih h0 (by rw [hsplit]; exact List.mem_cons_self _ _) a ha0
        · exact ih seg (by rw [hsplit]; exact List.mem_cons_of_mem _ h) a ha

/-- The separator never occurs inside a segment of `splitOn`. -/
theorem mem_splitOn_not_mem {α : Type} [DecidableEq α] (x : α) (l : List α) :
    ∀ seg ∈ l.splitOn x, x ∉ seg := by
  intro seg hseg hx
  have h := splitOnP_segments (· == x) l seg hseg x hx
  simp at h

/-- The trace of the `runScript` statement loop over an always-succeeding
connection: exactly the non-blank segments, as raw fragments, in order. -/
theorem runScriptGo_trace (conn : Conn)
    (hconn : ∀ q, ∃ rows, conn q = .ok rows) :
    ∀ stmts : List (List Char),
      (runScriptGo conn stmts).2
        = (stmts.filter fun s => !((jsTrim s).length == 0)).map
            (fun s => [SqlTok.lit (String.mk s)])
      ∧ (runScriptGo conn stmts).1 = .ok () := by
  intro stmts
  induction stmts with
  | nil => exact ⟨rfl, rfl⟩
  | cons s rest ih =>
    by_cases hs : (jsTrim s).length = 0
    · unfold runScriptGo
      rw [if_pos hs]
      simpa [List.filter_cons, hs] using ih
    · obtain ⟨rows, hq⟩ := hconn [SqlTok.lit (String.mk s)]
      unfold runScriptGo
      rw [if_neg hs]
      simp only [Db.query, hq, List.filter_cons]
      simp [hs, ih.1, ih.2]

/-- Claim C9: `runScript` splits the script on every `;` with no awareness
of string literals or comments (the segments reassemble to the script and
contain no `;`), skips segments that are blank after trimming, and executes
the remaining segments as raw statements one at a time in their original
order. -/
theorem runScript_splits (conn : Conn) (script : List Char)
    (hconn : ∀ q, ∃ rows, conn q = .ok rows) :
    (runScript conn script).2
      = ((jsSplit ';' script).filter fun s => !((jsTrim s).length == 0)).map
          (fun s => [SqlTok.lit (String.mk s)])
    ∧ List.intercalate [';'] (jsSplit ';' script) = script
    ∧ (∀ seg ∈ jsSplit ';' script, ';' ∉ seg)
    ∧ (runScript conn script).1 = .ok () := by
  refine ⟨(runScriptGo_trace conn hconn _).1, ?_, ?_,
    (runScriptGo_trace conn hconn _).2⟩
  · exact List.intercalate_splitOn script ';'
  · exact mem_splitOn_not_mem ';' script

/-- Witness for C9 on the concrete script `"a; ;b"`: the blank middle
segment is skipped, the others run in order. -/
theorem runScript_splits_witness :
    (runScript connOkEmpty ['a', ';', ' ', ';', 'b']).2
      = [[SqlTok.lit "a"], [SqlTok.lit "b"]] := by
  have h := (runScript_splits connOkEmpty ['a', ';', ' ', ';', 'b']
    (fun q => ⟨[], rfl⟩)).1
  rw [h]
  decide

/-- A connection that fails every query with the message `"boom"`. -/
def connBoom : Conn := fun _ => .error ⟨"boom"⟩

/-- Claim C6: a connection error is wrapped in the single generic
`DataAccessError` kind with the original message preserved, and propagates
through every accessor operation to the caller — the query is issued exactly
once (no retry) and no result is returned (no swallowing). -/
theorem connection_error_propagates (conn : Conn) (e : ConnError) (q : Sql)
    (tableName : String) (wh : Sql) (row whereValues values : Row) (rows : List Row) :
    (conn q = .error e → Db.query conn q = (.error (.dataAccessError e.message), [q]))
    ∧ ((∀ q2, conn q2 = .error e) →
        (Db.getAllBySql conn tableName wh).1 = .error (.dataAccessError e.message)
        ∧ (Db.setBySql conn tableName wh row).1 = .error (.dataAccessError e.message)
        ∧ (Db.set conn tableName whereValues row).1 = .error (.dataAccessError e.message)
        ∧ (Db.delBySql conn tableName wh).1 = .error (.dataAccessError e.message)
        ∧ (Db.del conn tableName values).1 = .error (.dataAccessError e.message)
        ∧ (Db.getOneBySql conn tableName wh).1 = .error (.dataAccessError e.message)
        ∧ (Db.getOneBySqlOrThrow conn tableName wh).1
            = .error (.dataAccessError e.message)
        ∧ (Db.getAll conn tableName values none).1 = .error (.dataAccessError e.message)
        ∧ (Db.getOne conn tableName values).1 = .error (.dataAccessError e.message)
        ∧ (Db.getOneOrThrow conn tableName values).1
            = .error (.dataAccessError e.message)
        ∧ (rows ≠ [] →
            (Db.insertOrThrow conn tableName rows).1 = .error (.dataAccessError e.message)
            ∧ (Db.insertOrIgnore conn tableName rows).1
                = .error (.dataAccessError e.message)
            ∧ (Db.insertOrReplace conn tableName rows).1
                = .error (.dataAccessError e.message))) := by
  constructor
  · intro hq
    unfold Db.query
    rw [hq]
  · intro hconn
    refine ⟨?_, ?_, ?_, ?_, ?_, ?_, ?_, ?_, ?_, ?_, ?_⟩
    · simp [Db.getAllBySql, Db.query, hconn]
    · simp [Db.setBySql, Db.query, hconn]
    · simp [Db.set, Db.setBySql, Db.query, hconn]
    · simp [Db.delBySql, Db.query, hconn, Except.map]
    · simp [Db.del, Db.delBySql, Db.query, hconn, Except.map]
    · simp [Db.getOneBySql, Db.getAllBySql, Db.query, hconn]
    · simp [Db.getOneBySqlOrThrow, Db.getOneBySql, Db.getAllBySql, Db.query, hconn]
    · simp [Db.getAll, Db.getAllBySql, Db.query, hconn]
    · simp [Db.getOne, Db.getAll, Db.getAllBySql, Db.query, hconn]
    · simp [Db.getOneOrThrow, Db.getOne, Db.getAll, Db.getAllBySql, Db.query, hconn]
    · intro hrows
      rcases rows with _ | ⟨r, rest⟩
      · exact absurd rfl hrows
      · refine ⟨?_, ?_, ?_⟩ <;>
          simp [Db.insertOrThrow, Db.insertOrIgnore, Db.insertOrReplace, Db.insert,
            Db.query, hconn, Db.firstInsertErr]

/-- Witness for C6: a connection failing with message `"boom"` surfaces as
`DataAccessError "boom"` from a raw query and from `getOne`. -/
theorem connection_error_propagates_witness :
    Db.query connBoom [SqlTok.lit "1"]
      = (.error (.dataAccessError "boom"), [[SqlTok.lit "1"]])
    ∧ (Db.getOne connBoom "users" []).1 = .error (.dataAccessError "boom") := by
  have h := connection_error_propagates connBoom ⟨"boom"⟩ [SqlTok.lit "1"]
    "users" [] [] [] [] []
  exact ⟨h.1 rfl, (h.2 (fun q2 => rfl)).2.2.2.2.2.2.2.2.1⟩


/-- The trace of `Db.getAllBySql` is its single SELECT statement. -/
theorem getAllBySql_trace (conn : Conn) (tableName : String) (wh : Sql) :
    (Db.getAllBySql conn tableName wh).2 = [Db.selectSql tableName wh] :=
  query_trace conn (Db.selectSql tableName wh)

/-- The trace of `Db.getOneBySql` is its single SELECT statement, with
` limit 2` appended to the predicate. -/
theorem getOneBySql_trace (conn : Conn) (tableName : String) (wh : Sql) :
    (Db.getOneBySql conn tableName wh).2
      = [Db.selectSql tableName (wh ++ [SqlTok.lit " limit 2"])] := by
  unfold Db.getOneBySql Db.getAllBySql Db.query
  rcases hc : conn (Db.selectSql tableName (wh ++ [SqlTok.lit " limit 2"])) with e | rows
  · simp [hc]
  · simp [hc]
    split_ifs <;> rfl

/-- The trace of `Db.getOneBySqlOrThrow` is the one statement of
`Db.getOneBySql`. -/
theorem getOneBySqlOrThrow_trace (conn : Conn) (tableName : String) (wh : Sql) :
    (Db.getOneBySqlOrThrow conn tableName wh).2
      = [Db.selectSql tableName (wh ++ [SqlTok.lit " limit 2"])] := by
  unfold Db.getOneBySqlOrThrow
  rcases hq : Db.getOneBySql conn tableName wh with ⟨res, tr⟩
  have htr : tr = [Db.selectSql tableName (wh ++ [SqlTok.lit " limit 2"])] := by
    have h2 := getOneBySql_trace conn tableName wh
    rw [hq] at h2
    exact h2
  subst htr
  rcases res with e | opt
  · rfl
  · rcases opt with _ | r <;> rfl

/-- The trace of `Db.getAll` with no options is its single SELECT. -/
theorem getAll_none_trace (conn : Conn) (tableName : String) (values : Row) :
    (Db.getAll conn tableName values none).2
      = [Db.selectSql tableName (Db.rowToWhere values)] := by
  unfold Db.getAll
  exact getAllBySql_trace conn tableName (Db.rowToWhere values)

/-- The trace of `Db.getOne` is its single SELECT. -/
theorem getOne_trace (conn : Conn) (tableName : String) (values : Row) :
    (Db.getOne conn tableName values).2
      = [Db.selectSql tableName (Db.rowToWhere values)] := by
  unfold Db.getOne
  rcases hq : Db.getAll conn tableName values none with ⟨res, tr⟩
  have htr : tr = [Db.selectSql tableName (Db.rowToWhere values)] := by
    have h2 := getAll_none_trace conn tableName values
    rw [hq] at h2
    exact h2
  subst htr
  rcases res with e | rows
  · rfl
  · by_cases h1 : rows.length < 2 <;> by_cases h2 : rows.length = 1 <;> simp [h1, h2]

/-- The trace of `Db.getOneOrThrow` is the one statement of `Db.getOne`. -/
theorem getOneOrThrow_trace (conn : Conn) (tableName : String) (values : Row) :
    (Db.getOneOrThrow conn tableName values).2
      = [Db.selectSql tableName (Db.rowToWhere values)] := by
  unfold Db.getOneOrThrow
  rcases hq : Db.getOne conn tableName values with ⟨res, tr⟩
  have htr : tr = [Db.selectSql tableName (Db.rowToWhere values)] := by
    have h2 := getOne_trace conn tableName values
    rw [hq] at h2
    exact h2
  subst htr
  rcases res with e | opt
  · rfl
  · rcases opt with _ | r <;> rfl


/-- When `Db.getAll` does not reject its options, it issues exactly one
statement. -/
theorem getAll_trace_of_valid (conn : Conn) (tableName : String) (values : Row)
    (options : Option GetAllOptions)
    (h : isInvalidArg (Db.getAll conn tableName values options).1 = false) :
    (Db.getAll conn tableName values options).2.length = 1 := by
  rcases options with _ | o
  · rw [getAll_none_trace]
    rfl
  · rcases o with ⟨ob, dir, lim⟩
    unfold Db.getAll at h ⊢
    rcases lim with _ | lv <;>
      dsimp only at h ⊢ <;>
      split_ifs at h ⊢ <;>
        solve
          | simp [isInvalidArg] at h
          | simp [Db.getAllBySql, query_trace]


/-- Claim C7: every accessor operation issues exactly one query per call
(for `getAll`, provided its options pass validation — rejected options issue
none), except multi-row insert, which issues exactly one INSERT statement
per row of its argument list. -/
theorem one_query_per_call (conn : Conn) (tableName : String) (rows : List Row)
    (wh : Sql) (row whereValues values : Row) (options : Option GetAllOptions)
    (h : isInvalidArg (Db.getAll conn tableName values options).1 = false) :
    (Db.getAll conn tableName values options).2.length = 1
    ∧ (Db.setBySql conn tableName wh row).2.length = 1
    ∧ (Db.set conn tableName whereValues row).2.length = 1
    ∧ (Db.delBySql conn tableName wh).2.length = 1
    ∧ (Db.del conn tableName values).2.length = 1
    ∧ (Db.getAllBySql conn tableName wh).2.length = 1
    ∧ (Db.getOneBySql conn tableName wh).2.length = 1
    ∧ (Db.getOneBySqlOrThrow conn tableName wh).2.length = 1
    ∧ (Db.getOne conn tableName values).2.length = 1
    ∧ (Db.getOneOrThrow conn tableName values).2.length = 1
    ∧ (Db.insertOrThrow conn tableName rows).2
        = rows.map (Db.insertRowSql [SqlTok.lit "insert into"] tableName)
    ∧ (Db.insertOrIgnore conn tableName rows).2
        = rows.map (Db.insertRowSql [SqlTok.lit "insert or ignore into"] tableName)
    ∧ (Db.insertOrReplace conn tableName rows).2
        = rows.map (Db.insertRowSql [SqlTok.lit "replace into"] tableName)
    ∧ (Db.insertOrThrow conn tableName rows).2.length = rows.length := by
  refine ⟨getAll_trace_of_valid conn tableName values options h, ?_, ?_, ?_, ?_,
    ?_, ?_, ?_, ?_, ?_, ?_, ?_, ?_, ?_⟩
  · simp [Db.setBySql, query_trace]
  · simp [Db.set, Db.setBySql, query_trace]
  · simp [Db.delBySql, query_trace]
  · simp [Db.del, Db.delBySql, query_trace]
  · simp [getAllBySql_trace]
  · simp [getOneBySql_trace]
  · simp [getOneBySqlOrThrow_trace]
  · simp [getOne_trace]
  · simp [getOneOrThrow_trace]
  · exact insert_trace conn _ tableName rows
  · exact insert_trace conn _ tableName rows
  · exact insert_trace conn _ tableName rows
  · unfold Db.insertOrThrow
    rw [insert_trace conn _ tableName rows, List.length_map]

/-- Witness for C7: with always-empty answers and no options, `getAll`
issues one query and a two-row insert issues two INSERT statements. -/
theorem one_query_per_call_witness :
    (Db.getAll connOkEmpty "users" [] none).2.length = 1
    ∧ (Db.insertOrThrow connOkEmpty "users"
        [[("user_id", JsVal.num 1)], [("user_id", JsVal.num 2)]]).2.length = 2 := by
  have h := one_query_per_call connOkEmpty "users"
    [[("user_id", JsVal.num 1)], [("user_id", JsVal.num 2)]]
    [SqlTok.lit "1"] [] [] [] none (by rfl)
  exact ⟨h.1, h.2.2.2.2.2.2.2.2.2.2.2.2.2⟩


/-- `options.orderBy` is an empty array (the only shape the source's
orderBy `invariant` rejects). -/
def badOrderBy (o : GetAllOptions) : Bool :=
  match o.orderBy with
  | .inr [] => true
  | _ => false

/-- `options.direction` is defined, truthy (non-empty — JS `!options.direction`
lets `""` through), and neither `"asc"` nor `"desc"`. -/
def badDirection (o : GetAllOptions) : Bool :=
  match o.direction with
  | none => false
  | some d => !(d == "" || d == "asc" || d == "desc")

/-- `options.limit` is defined and its runtime type is not number (the only
check the source performs — sign and integrality are not checked). -/
def badLimit (o : GetAllOptions) : Bool :=
  match o.limit with
  | none => false
  | some lv => !(isJsNumber lv)

/-- The non-rejected options used by the counterexample to claim C4: a
defined limit of `-1`, which is not a non-negative integer. -/
def negativeLimitOptions : GetAllOptions :=
  ⟨Sum.inl "age", none, some (JsVal.num (-1))⟩

/-- Counterexample to claim C4: `getAll` with `limit: -1` — a defined limit
that is not a non-negative integer — does not raise `InvalidArgument` (the
source only checks `typeof limit === "number"`); the query is issued. -/
theorem getAll_validation_counterexample :
    negativeLimitOptions.limit = some (JsVal.num (-1))
    ∧ (-1 : Int) < 0
    ∧ isInvalidArg
        (Db.getAll connOkEmpty "users" [] (some negativeLimitOptions)).1 = false
    ∧ (Db.getAll connOkEmpty "users" [] (some negativeLimitOptions)).2.length = 1 := by
  refine ⟨rfl, by decide, rfl, rfl⟩

/-- Claim C4 as amended: `getAll` raises `InvalidArgument` — before any
statement is issued — exactly when `orderBy` is an empty array, or
`direction` is defined, truthy and outside {asc, desc}, or `limit` is
defined and not a number at runtime.  In particular a numeric `limit` that
is negative or fractional, or an empty-string `direction`, is not rejected;
in every non-rejected case no `InvalidArgument` arises. -/
theorem getAll_validation_amended (conn : Conn) (tableName : String)
    (values : Row) (o : GetAllOptions) :
    isInvalidArg (Db.getAll conn tableName values none).1 = false
    ∧ isInvalidArg (Db.getAll conn tableName values (some o)).1
        = (badOrderBy o || badDirection o || badLimit o)
    ∧ ((badOrderBy o || badDirection o || badLimit o) = true →
        (Db.getAll conn tableName values (some o)).2 = []) := by
  refine ⟨?_, ?_, ?_⟩
  · unfold Db.getAll Db.getAllBySql
    exact query_not_invalidArg conn _
  · rcases o with ⟨ob, dir, lim⟩
    unfold Db.getAll badOrderBy badDirection badLimit
    rcases ob with c | l <;> rcases dir with _ | d <;> rcases lim with _ | lv <;>
      dsimp only <;>
      split_ifs <;>
      simp_all [isInvalidArg, Db.getAllBySql, query_not_invalidArg,
        List.length_eq_zero] <;>
      first
        | rfl
        | exact query_not_invalidArg conn _
  · intro hbad
    rcases o with ⟨ob, dir, lim⟩
    unfold badOrderBy badDirection badLimit at hbad
    unfold Db.getAll
    rcases ob with c | l <;> rcases dir with _ | d <;> rcases lim with _ | lv <;>
      dsimp only <;>
      split_ifs <;>
      simp_all [Db.getAllBySql, query_trace]


/-- Witness for C4's amended claim: an empty orderBy array is rejected with
`InvalidArgument` and no statement is issued. -/
theorem getAll_validation_amended_witness :
    isInvalidArg
      (Db.getAll connOkEmpty "users" []
        (some ⟨Sum.inr [], none, none⟩)).1 = true
    ∧ (Db.getAll connOkEmpty "users" [] (some ⟨Sum.inr [], none, none⟩)).2 = [] := by
  have h := getAll_validation_amended connOkEmpty "users" [] ⟨Sum.inr [], none, none⟩
  refine ⟨?_, h.2.2 rfl⟩
  rw [h.2.1]
  rfl

/-- Claim C1: for any predicate, `getOneBySql` issues its SELECT with
` limit 2` appended; against the modelled engine, `getOne`/`getOneBySql`
return the single matching row when exactly one row matches, return `none`
when no row matches, and fail with `InvariantViolation` when two or more
match; the `OrThrow` variants fail with `InvariantViolation` instead of
returning `none` when no row matches. -/
theorem getOne_cardinality (conn : Conn) (tableName : String) (wh : Sql)
    (table : List Row) (pred : Row → Bool) (values : Row) :
    (Db.getOneBySql conn tableName wh).2
      = [Db.selectSql tableName (wh ++ [SqlTok.lit " limit 2"])]
    ∧ (table.filter pred = [] →
        getOneBySqlSem table pred = .ok none
        ∧ getOneBySqlOrThrowSem table pred
            = .error (.invariantViolation "less than one row matched this query"))
    ∧ (∀ r, table.filter pred = [r] →
        getOneBySqlSem table pred = .ok (some r)
        ∧ getOneBySqlOrThrowSem table pred = .ok r)
    ∧ (2 ≤ (table.filter pred).length →
        getOneBySqlSem table pred
            = .error (.invariantViolation "more than one row matched this query")
        ∧ getOneBySqlOrThrowSem table pred
            = .error (.invariantViolation "more than one row matched this query"))
    ∧ (table.filter (rowMatches values) = [] →
        getOneSem table values = .ok none
        ∧ getOneOrThrowSem table values
            = .error (.invariantViolation "less than one row matched this query"))
    ∧ (∀ r, table.filter (rowMatches values) = [r] →
        getOneSem table values = .ok (some r)
        ∧ getOneOrThrowSem table values = .ok r)
    ∧ (2 ≤ (table.filter (rowMatches values)).length →
        getOneSem table values
            = .error (.invariantViolation "more than one row matched this query")
        ∧ getOneOrThrowSem table values
            = .error (.invariantViolation "more than one row matched this query")) := by
  refine ⟨getOneBySql_trace conn tableName wh, ?_, ?_, ?_, ?_, ?_, ?_⟩
  · intro hfil
    simp [getOneBySqlSem, getOneBySqlOrThrowSem, selectWhere, hfil]
  · intro r hfil
    simp [getOneBySqlSem, getOneBySqlOrThrowSem, selectWhere, hfil]
  · intro h2
    have hlen : ((table.filter pred).take 2).length = 2 := by
      rw [List.length_take]
      omega
    constructor <;>
      simp [getOneBySqlSem, getOneBySqlOrThrowSem, selectWhere, hlen]
  · intro hfil
    simp [getOneSem, getOneOrThrowSem, selectWhere, hfil]
  · intro r hfil
    simp [getOneSem, getOneOrThrowSem, selectWhere, hfil]
  · intro h2
    have hlt : ¬ (table.filter (rowMatches values)).length < 2 := by omega
    have hne : (table.filter (rowMatches values)).length ≠ 1 := by omega
    constructor <;>
      simp [getOneSem, getOneOrThrowSem, selectWhere, hlt]

/-- Witness for C1: a two-row table in which exactly one row matches the
predicate `user_id = 1`: `getOne` returns it, `getOneOrThrow` returns it. -/
theorem getOne_cardinality_witness :
    ([[("user_id", JsVal.num 1)], [("user_id", JsVal.num 2)]].filter
        (rowMatches [("user_id", JsVal.num 1)]) = [[("user_id", JsVal.num 1)]])
    ∧ getOneSem [[("user_id", JsVal.num 1)], [("user_id", JsVal.num 2)]]
        [("user_id", JsVal.num 1)] = .ok (some [("user_id", JsVal.num 1)])
    ∧ getOneOrThrowSem [[("user_id", JsVal.num 1)], [("user_id", JsVal.num 2)]]
        [("user_id", JsVal.num 1)] = .ok [("user_id", JsVal.num 1)] := by
  have h := (getOne_cardinality connOkEmpty "users" [SqlTok.lit "1"]
    [[("user_id", JsVal.num 1)], [("user_id", JsVal.num 2)]] (fun _ => true)
    [("user_id", JsVal.num 1)]).2.2.2.2.2.1 [("user_id", JsVal.num 1)] (by decide)
  exact ⟨by decide, h.1, h.2⟩


/-- Looking a schema column up in a materialized row yields the inserted
value when present, null when omitted. -/
theorem lookup_materialize (schema : List String) (row : Row) (c : String)
    (hc : c ∈ schema) :
    (materialize schema row).lookup c = some ((row.lookup c).getD JsVal.null) := by
  induction schema with
  | nil => cases hc
  | cons a rest ih =>
    unfold materialize
    by_cases hca : c = a
    · subst hca
      simp [List.lookup]
    · rcases List.mem_cons.mp hc with rfl | hmem
      · exact absurd rfl hca
      · have : (c == a) = false := by
          simp [hca]
        simp only [List.map_cons, List.lookup, this]
        exact ih hmem

/-- A single-pair partial-row predicate is a lookup test. -/
theorem rowMatches_single (c : String) (v : JsVal) (r : Row) :
    rowMatches [(c, v)] r = (r.lookup c == some v) := by
  simp [rowMatches]

/-- Claim C8 (round-trip): inserting a fresh row with `insertOrThrow` and
fetching it back by primary key with `getOne` returns exactly the stored
image of the inserted row — every present column keeps its value and every
omitted schema column is materialized as null. -/
theorem insert_getOne_roundtrip (table : List Row) (schema : List String)
    (row : Row) (pkCol : String) (v : JsVal)
    (hmem : pkCol ∈ schema)
    (hpk : row.lookup pkCol = some v)
    (hfresh : ∀ r ∈ table, ¬ r.lookup pkCol = some v) :
    getOneSem (insertOrThrowSem table schema row) [(pkCol, v)]
        = .ok (some (materialize schema row))
    ∧ (∀ c val, c ∈ schema → row.lookup c = some val →
        (materialize schema row).lookup c = some val)
    ∧ (∀ c, c ∈ schema → row.lookup c = none →
        (materialize schema row).lookup c = some JsVal.null) := by
  refine ⟨?_, ?_, ?_⟩
  · have hmat : (materialize schema row).lookup pkCol = some v := by
      rw [lookup_materialize schema row pkCol hmem, hpk]
      rfl
    have hfil : (insertOrThrowSem table schema row).filter
        (rowMatches [(pkCol, v)]) = [materialize schema row] := by
      unfold insertOrThrowSem
      rw [List.filter_append]
      have h1 : table.filter (rowMatches [(pkCol, v)]) = [] := by
        rw [List.filter_eq_nil_iff]
        intro r hr
        rw [rowMatches_single]
        simpa using hfresh r hr
      have h2 : [materialize schema row].filter (rowMatches [(pkCol, v)])
          = [materialize schema row] := by
        have : rowMatches [(pkCol, v)] (materialize schema row) = true := by
          rw [rowMatches_single, hmat]
          simp
        simp [List.filter, this]
      rw [h1, h2]
      rfl
    simp [getOneSem, selectWhere, hfil]
  · intro c val hc hval
    rw [lookup_materialize schema row c hc, hval]
    rfl
  · intro c hc hval
    rw [lookup_materialize schema row c hc, hval]
    rfl

/-- Witness for C8: schema (user_id, bio), inserted row {user_id: 1} into an
empty table; fetching by user_id = 1 returns {user_id: 1, bio: null}. -/
theorem insert_getOne_roundtrip_witness :
    getOneSem (insertOrThrowSem [] ["user_id", "bio"] [("user_id", JsVal.num 1)])
        [("user_id", JsVal.num 1)]
      = .ok (some [("user_id", JsVal.num 1), ("bio", JsVal.null)]) := by
  have h := (insert_getOne_roundtrip [] ["user_id", "bio"]
    [("user_id", JsVal.num 1)] "user_id" (JsVal.num 1)
    (by decide) (by decide) (by intro r hr; cases hr)).1
  rw [h]
  rfl

end Rowrm
